import Mathlib

/-!
Shallow embedding of the supply-chain game engine in `src/app.py`
("Supply Chain Resilience Commander V3.2").

The source keeps its state in a mutable session store; here it is a
`GameState` value and every mutating procedure becomes a function
`GameState → GameState`.  The two random draws a turn consumes — the
truncated normal demand sample in `get_demand` and the price-walk step in
`update_market_price` — are passed in explicitly as fields of `TurnInput`,
so the engine is a deterministic function of state and input.
-/

namespace SupplyChain

/-- Shipping mode chosen on the order form (`ship_mode` is the string
`'sea'` or `'air'` in the source). -/
inductive ShipMode where
  | sea
  | air
deriving DecidableEq, Repr

/-- One pending order, `{'arrival_week': int, 'qty': int}` in the source. -/
structure Shipment where
  arrival_week : Int
  qty : Int
deriving DecidableEq, Repr

/-- The per-week history record built at step 10 of `process_turn`. -/
structure TurnRecord where
  week : Int
  demand : Int
  order_qty : Int
  market_price : Int
  ship_mode : ShipMode
  sales : Int
  missed_sales : Int
  ending_inv : Int
  kpi_score : Int
  revenue : Int
  procurement_cost : Int
  holding_cost : Int
  shortage_penalty : Int
  overflow_penalty : Int
  kpi_fine : Int
  net_profit : Int
  cash : Int
deriving DecidableEq, Repr

/-- The session state mutated by the source (`st.session_state` fields set
in `init_game` and updated by `process_turn` and the sidebar handlers). -/
structure GameState where
  week : Int
  cash : Int
  inventory : Int
  market_price : Int
  sea_lead_time_base : Int
  market_intel : Bool
  game_over : Bool
  kpi_score : Int
  upstream_congestion : Bool
  history : List TurnRecord
  pending_orders : List Shipment
  last_week_metrics : Option TurnRecord
deriving DecidableEq, Repr

/-- A player decision together with the turn's two random draws:
`demand_draw` is `int(np.random.normal(20, 5))` and `price_change` is
`random.choice([-5, 0, 5])` in the source. -/
structure TurnInput where
  order_qty : Int
  ship_mode : ShipMode
  demand_draw : Int
  price_change : Int
deriving DecidableEq, Repr

/-! Configuration constants (`src/app.py` lines 7–28). -/

def MAX_WEEKS : Int := 20
def INITIAL_CASH : Int := 10000
def INITIAL_INVENTORY : Int := 50
def UNIT_SELLING_PRICE : Int := 100
def INITIAL_MARKET_PRICE : Int := 60
def HOLDING_COST : Int := 5
def SHORTAGE_PENALTY : Int := 10
def WAREHOUSE_CAPACITY : Int := 120
def OVERFLOW_PENALTY : Int := 50
def MARKET_INTEL_COST : Int := 500
def UPSTREAM_CAPACITY : Int := 60
def SEA_FREIGHT_COST : Int := 2
def AIR_FREIGHT_COST : Int := 15
def KPI_START : Int := 100
def KPI_PENALTY_THRESHOLD_YELLOW : Int := 70
def KPI_PENALTY_THRESHOLD_RED : Int := 50
def KPI_FINE_YELLOW : Int := 500
def KPI_FINE_RED : Int := 2000

/-- The maximum order quantity enforced by the order form's number input
(`max_value=500`, line 346). -/
def MAX_ORDER_QTY : Int := 500

/-- State set up by `init_game` (lines 32–53): week 1, starting cash and
inventory, base sea lead time 2, KPI 100, empty ledger and history. -/
def init_game : GameState where
  week := 1
  cash := INITIAL_CASH
  inventory := INITIAL_INVENTORY
  market_price := INITIAL_MARKET_PRICE
  sea_lead_time_base := 2
  market_intel := false
  game_over := false
  kpi_score := KPI_START
  upstream_congestion := false
  history := []
  pending_orders := []
  last_week_metrics := none

/-- Demand for a week (`get_demand`, lines 55–64): the normal sample is
floored at 0, and week 8 adds a spike of 15. -/
def get_demand (draw week : Int) : Int :=
  max 0 draw + (if week = 8 then 15 else 0)

/-- Market-price random walk (`update_market_price`, lines 66–70): add the
drawn change, clamp into [40, 90]. -/
def update_market_price (change current_price : Int) : Int :=
  max 40 (min 90 (current_price + change))

/-- Scheduled events (`check_events`, lines 72–81): at week 12 the Black
Swan port strike sets the sea base lead time to 3. -/
def check_events (week : Int) (s : GameState) : GameState :=
  if week = 12 then { s with sea_lead_time_base := 3 } else s

/-- Sum of the quantities of a list of shipments. -/
def sumQty : List Shipment → Int
  | [] => 0
  | o :: rest => o.qty + sumQty rest

/-! Components of one turn (`process_turn`, lines 83–200), split into the
named intermediate quantities the source computes, each a function of the
turn input and the pre-turn state.  `check_events` changes only
`sea_lead_time_base`, so every component except the lead time can read the
pre-turn state directly. -/

/-- State after step 1 of the turn (apply events for the current week). -/
def events_state (s : GameState) : GameState :=
  check_events s.week s

/-- Demand generated at step 2. -/
def turn_demand (inp : TurnInput) (s : GameState) : Int :=
  get_demand inp.demand_draw s.week

/-- Arrivals drained at step 3: total quantity with `arrival_week` equal to
the current week (line 96). -/
def turn_arrivals (s : GameState) : Int :=
  sumQty (s.pending_orders.filter fun o => o.arrival_week == s.week)

/-- Ledger remaining after step 3: shipments with `arrival_week` strictly
beyond the current week (line 97). -/
def remaining_orders (s : GameState) : List Shipment :=
  s.pending_orders.filter fun o => decide (s.week < o.arrival_week)

/-- Step 4: inventory available for sale (line 100). -/
def available_inventory (s : GameState) : Int :=
  s.inventory + turn_arrivals s

/-- Step 5: sales (line 103). -/
def turn_sales (inp : TurnInput) (s : GameState) : Int :=
  min (turn_demand inp s) (available_inventory s)

/-- Step 5: missed sales (line 104). -/
def turn_missed_sales (inp : TurnInput) (s : GameState) : Int :=
  turn_demand inp s - turn_sales inp s

/-- Step 5: ending inventory (line 105). -/
def turn_ending_inventory (inp : TurnInput) (s : GameState) : Int :=
  available_inventory s - turn_sales inp s

/-- Step 6: updated KPI score (lines 107–114): −5 on a stockout, +2
otherwise, clamped to [0, 100]. -/
def turn_kpi_score (inp : TurnInput) (s : GameState) : Int :=
  max 0 (min 100 (s.kpi_score + (if 0 < turn_missed_sales inp s then -5 else 2)))

/-- Step 7: revenue (line 117). -/
def turn_revenue (inp : TurnInput) (s : GameState) : Int :=
  turn_sales inp s * UNIT_SELLING_PRICE

/-- Step 7: per-unit shipping cost (line 120). -/
def shipping_cost_unit (inp : TurnInput) : Int :=
  if inp.ship_mode = ShipMode.sea then SEA_FREIGHT_COST else AIR_FREIGHT_COST

/-- Step 7: procurement cost, charged at order time against the current
market price (line 121). -/
def turn_procurement_cost (inp : TurnInput) (s : GameState) : Int :=
  inp.order_qty * (s.market_price + shipping_cost_unit inp)

/-- Step 7: holding cost on ending inventory (line 124). -/
def turn_holding_cost (inp : TurnInput) (s : GameState) : Int :=
  turn_ending_inventory inp s * HOLDING_COST

/-- Step 7: shortage penalty (line 127). -/
def turn_shortage_penalty (inp : TurnInput) (s : GameState) : Int :=
  turn_missed_sales inp s * SHORTAGE_PENALTY

/-- Step 7: warehouse overflow penalty (lines 130–133). -/
def turn_overflow_penalty (inp : TurnInput) (s : GameState) : Int :=
  if WAREHOUSE_CAPACITY < turn_ending_inventory inp s then
    (turn_ending_inventory inp s - WAREHOUSE_CAPACITY) * OVERFLOW_PENALTY
  else 0

/-- Step 7: KPI fine (lines 137–143), read off the score already updated at
step 6. -/
def turn_kpi_fine (inp : TurnInput) (s : GameState) : Int :=
  if turn_kpi_score inp s < KPI_PENALTY_THRESHOLD_RED then KPI_FINE_RED
  else if turn_kpi_score inp s < KPI_PENALTY_THRESHOLD_YELLOW then KPI_FINE_YELLOW
  else 0

/-- Step 7: net weekly profit (line 145). -/
def turn_net_profit (inp : TurnInput) (s : GameState) : Int :=
  turn_revenue inp s - turn_procurement_cost inp s - turn_holding_cost inp s
    - turn_shortage_penalty inp s - turn_overflow_penalty inp s - turn_kpi_fine inp s

/-- Step 8: cash after the turn (line 148). -/
def turn_cash (inp : TurnInput) (s : GameState) : Int :=
  s.cash + turn_net_profit inp s

/-- Step 9: next week's market price (line 152). -/
def turn_market_price (inp : TurnInput) (s : GameState) : Int :=
  update_market_price inp.price_change s.market_price

/-- Current sea lead time (lines 156–159): the base — as possibly raised by
this week's event — plus 1 if the previous turn set the congestion flag. -/
def current_sea_lt (s : GameState) : Int :=
  (events_state s).sea_lead_time_base + (if s.upstream_congestion then 1 else 0)

/-- Effective lead time of this turn's order (line 161): air is a fixed 1
week, sea uses `current_sea_lt`. -/
def turn_lead_time (inp : TurnInput) (s : GameState) : Int :=
  if inp.ship_mode = ShipMode.air then 1 else current_sea_lt s

/-- Arrival week of this turn's order (line 162). -/
def turn_arrival_week (inp : TurnInput) (s : GameState) : Int :=
  s.week + turn_lead_time inp s

/-- Ledger after the turn (lines 164–165): the order is appended only when
its quantity is positive. -/
def next_pending (inp : TurnInput) (s : GameState) : List Shipment :=
  if 0 < inp.order_qty then
    remaining_orders s ++ [⟨turn_arrival_week inp s, inp.order_qty⟩]
  else remaining_orders s

/-- Congestion flag for the next turn (lines 168–172): set iff this turn's
order exceeds the upstream capacity. -/
def next_congestion (inp : TurnInput) : Bool :=
  decide (UPSTREAM_CAPACITY < inp.order_qty)

/-- History record logged at step 10 (lines 175–193).  Note the source logs
the already-updated market price (line 179) and the post-update KPI score
and cash. -/
def turn_record (inp : TurnInput) (s : GameState) : TurnRecord where
  week := s.week
  demand := turn_demand inp s
  order_qty := inp.order_qty
  market_price := turn_market_price inp s
  ship_mode := inp.ship_mode
  sales := turn_sales inp s
  missed_sales := turn_missed_sales inp s
  ending_inv := turn_ending_inventory inp s
  kpi_score := turn_kpi_score inp s
  revenue := turn_revenue inp s
  procurement_cost := turn_procurement_cost inp s
  holding_cost := turn_holding_cost inp s
  shortage_penalty := turn_shortage_penalty inp s
  overflow_penalty := turn_overflow_penalty inp s
  kpi_fine := turn_kpi_fine inp s
  net_profit := turn_net_profit inp s
  cash := turn_cash inp s

/-- One full turn (`process_turn`, lines 83–200): events, demand, drain,
fulfilment, KPI, financial settlement, price walk, order placement,
congestion flag, history, week advance and game-over check. -/
def process_turn (inp : TurnInput) (s : GameState) : GameState where
  week := s.week + 1
  cash := turn_cash inp s
  inventory := turn_ending_inventory inp s
  market_price := turn_market_price inp s
  sea_lead_time_base := (events_state s).sea_lead_time_base
  market_intel := s.market_intel
  game_over := if MAX_WEEKS < s.week + 1 then true else s.game_over
  kpi_score := turn_kpi_score inp s
  upstream_congestion := next_congestion inp
  history := s.history ++ [turn_record inp s]
  pending_orders := next_pending inp s
  last_week_metrics := some (turn_record inp s)

/-- The sidebar market-intel purchase (lines 243–252): shown only while
intel is off; deducts the cost when cash suffices, otherwise leaves the
state unchanged. -/
def buy_intel (s : GameState) : GameState :=
  if s.market_intel then s
  else if MARKET_INTEL_COST ≤ s.cash then
    { s with cash := s.cash - MARKET_INTEL_COST, market_intel := true }
  else s

/-- Rejection signal of the submission path. -/
inductive SubmitError where
  | invalidDecision
deriving DecidableEq, Repr

/-- The decision-submission path of the page (lines 267–290 and 337–375):
once the game is over, `st.stop()` runs before the order form, so no
decision can be committed; the quantity widget enforces 0 ≤ qty ≤ 500;
otherwise the submitted decision runs `process_turn`.  A rejected
submission produces no successor state — `GameState` is untouched. -/
def submit (inp : TurnInput) (s : GameState) : Except SubmitError GameState :=
  if s.game_over then Except.error SubmitError.invalidDecision
  else if inp.order_qty < 0 ∨ MAX_ORDER_QTY < inp.order_qty then
    Except.error SubmitError.invalidDecision
  else Except.ok (process_turn inp s)

/-- States reachable in a session: the initial state (also produced by the
reset button), plus anything a processed turn or an intel purchase yields. -/
inductive Reachable : GameState → Prop where
  | init : Reachable init_game
  | step (inp : TurnInput) {s : GameState} : Reachable s → Reachable (process_turn inp s)
  | intel {s : GameState} : Reachable s → Reachable (buy_intel s)

/-! Iterated runs, for the ledger-conservation property. -/

/-- Fold a list of turn inputs through `process_turn`. -/
def run : List TurnInput → GameState → GameState
  | [], s => s
  | inp :: rest, s => run rest (process_turn inp s)

/-- Total quantity ever enqueued into the ledger over a run: each turn
appends its order exactly when the quantity is positive. -/
def totalEnqueued : List TurnInput → Int
  | [] => 0
  | inp :: rest => (if 0 < inp.order_qty then inp.order_qty else 0) + totalEnqueued rest

/-- Total arrivals drained over a run. -/
def totalArrivals : List TurnInput → GameState → Int
  | [], _ => 0
  | inp :: rest, s => turn_arrivals s + totalArrivals rest (process_turn inp s)

/-! Invariants of reachable states. -/

/-- The inductive invariant of a session: non-negative inventory, KPI in
[0, 100], sea base lead time 2 or 3, and a well-formed ledger (positive
quantities, no shipment past its arrival week). -/
def Inv (s : GameState) : Prop :=
  0 ≤ s.inventory ∧ 0 ≤ s.kpi_score ∧ s.kpi_score ≤ 100
    ∧ (s.sea_lead_time_base = 2 ∨ s.sea_lead_time_base = 3)
    ∧ ∀ o ∈ s.pending_orders, 0 < o.qty ∧ s.week ≤ o.arrival_week

lemma turn_ending_inventory_nonneg (inp : TurnInput) (s : GameState) :
    0 ≤ turn_ending_inventory inp s := by
  unfold turn_ending_inventory turn_sales
  have h := min_le_right (turn_demand inp s) (available_inventory s)
  omega

lemma turn_kpi_score_bounds (inp : TurnInput) (s : GameState) :
    0 ≤ turn_kpi_score inp s ∧ turn_kpi_score inp s ≤ 100 := by
  unfold turn_kpi_score
  exact ⟨le_max_left 0 _, max_le (by norm_num) (min_le_left _ _)⟩

lemma events_state_base (s : GameState) :
    (events_state s).sea_lead_time_base =
      if s.week = 12 then 3 else s.sea_lead_time_base := by
  unfold events_state check_events
  split <;> rfl

lemma events_state_base23 (s : GameState)
    (hb : s.sea_lead_time_base = 2 ∨ s.sea_lead_time_base = 3) :
    (events_state s).sea_lead_time_base = 2 ∨ (events_state s).sea_lead_time_base = 3 := by
  rw [events_state_base]
  split
  · exact Or.inr rfl
  · exact hb

lemma one_le_turn_lead_time (inp : TurnInput) (s : GameState)
    (hb : s.sea_lead_time_base = 2 ∨ s.sea_lead_time_base = 3) :
    1 ≤ turn_lead_time inp s := by
  unfold turn_lead_time current_sea_lt
  rcases events_state_base23 s hb with h | h <;> rw [h] <;> split <;> omega

lemma ledgerOk_process_turn (inp : TurnInput) (s : GameState)
    (hL : ∀ o ∈ s.pending_orders, 0 < o.qty ∧ s.week ≤ o.arrival_week)
    (hb : s.sea_lead_time_base = 2 ∨ s.sea_lead_time_base = 3) :
    ∀ o ∈ (process_turn inp s).pending_orders,
      0 < o.qty ∧ (process_turn inp s).week ≤ o.arrival_week := by
  intro o ho
  have hw : (process_turn inp s).week = s.week + 1 := rfl
  rw [hw]
  have hpend : (process_turn inp s).pending_orders = next_pending inp s := rfl
  rw [hpend] at ho
  unfold next_pending at ho
  by_cases hq : 0 < inp.order_qty
  · rw [if_pos hq] at ho
    rcases List.mem_append.mp ho with hmem | hmem
    · unfold remaining_orders at hmem
      obtain ⟨hin, hgt⟩ := List.mem_filter.mp hmem
      have hlt : s.week < o.arrival_week := of_decide_eq_true hgt
      exact ⟨(hL o hin).1, by omega⟩
    · have heq : o = ⟨turn_arrival_week inp s, inp.order_qty⟩ := List.mem_singleton.mp hmem
      subst heq
      refine ⟨hq, ?_⟩
      show s.week + 1 ≤ turn_arrival_week inp s
      unfold turn_arrival_week
      have h1 := one_le_turn_lead_time inp s hb
      omega
  · rw [if_neg hq] at ho
    unfold remaining_orders at ho
    obtain ⟨hin, hgt⟩ := List.mem_filter.mp ho
    have hlt : s.week < o.arrival_week := of_decide_eq_true hgt
    exact ⟨(hL o hin).1, by omega⟩

lemma inv_init : Inv init_game := by
  refine ⟨?_, ?_, ?_, ?_, ?_⟩ <;>
    simp [init_game, Inv, INITIAL_INVENTORY, KPI_START]

lemma inv_process_turn (inp : TurnInput) (s : GameState) (h : Inv s) :
    Inv (process_turn inp s) := by
  obtain ⟨hi, hk0, hk1, hb, hL⟩ := h
  exact ⟨turn_ending_inventory_nonneg inp s, (turn_kpi_score_bounds inp s).1,
    (turn_kpi_score_bounds inp s).2, events_state_base23 s hb,
    ledgerOk_process_turn inp s hL hb⟩

lemma inv_buy_intel (s : GameState) (h : Inv s) : Inv (buy_intel s) := by
  unfold buy_intel
  split
  · exact h
  · split
    · obtain ⟨hi, hk0, hk1, hb, hL⟩ := h
      exact ⟨hi, hk0, hk1, hb, hL⟩
    · exact h

lemma reachable_inv {s : GameState} (h : Reachable s) : Inv s := by
  induction h with
  | init => exact inv_init
  | step inp _ ih => exact inv_process_turn _ _ ih
  | intel _ ih => exact inv_buy_intel _ ih

/-! Ledger accounting lemmas. -/

lemma sumQty_append (l1 l2 : List Shipment) :
    sumQty (l1 ++ l2) = sumQty l1 + sumQty l2 := by
  induction l1 with
  | nil => simp [sumQty]
  | cons o rest ih =>
    show o.qty + sumQty (rest ++ l2) = o.qty + sumQty rest + sumQty l2
    omega

lemma sumQty_filter_split (w : Int) (l : List Shipment)
    (h : ∀ o ∈ l, w ≤ o.arrival_week) :
    sumQty (l.filter fun o => decide (w < o.arrival_week))
      + sumQty (l.filter fun o => o.arrival_week == w) = sumQty l := by
  induction l with
  | nil => simp [sumQty]
  | cons o rest ih =>
    have ho := h o (List.mem_cons_self o rest)
    have hrest : ∀ p ∈ rest, w ≤ p.arrival_week :=
      fun p hp => h p (List.mem_cons_of_mem o hp)
    have hrec := ih hrest
    by_cases he : o.arrival_week = w
    · have h1 : decide (w < o.arrival_week) = false := by simp [he]
      have h2 : (o.arrival_week == w) = true := by simp [he]
      simp only [List.filter_cons, h1, h2, if_neg Bool.false_ne_true, if_pos rfl]
      show sumQty _ + (o.qty + sumQty _) = o.qty + sumQty rest
      omega
    · have hlt : w < o.arrival_week := lt_of_le_of_ne ho fun hh => he hh.symm
      have h1 : decide (w < o.arrival_week) = true := by simp [hlt]
      have h2 : (o.arrival_week == w) = false := by simp [he]
      simp only [List.filter_cons, h1, h2, if_neg Bool.false_ne_true, if_pos rfl]
      show o.qty + sumQty _ + sumQty _ = o.qty + sumQty rest
      omega

lemma pendQty_step (inp : TurnInput) (s : GameState)
    (hL : ∀ o ∈ s.pending_orders, s.week ≤ o.arrival_week) :
    sumQty (process_turn inp s).pending_orders + turn_arrivals s
      = sumQty s.pending_orders + (if 0 < inp.order_qty then inp.order_qty else 0) := by
  have hsplit := sumQty_filter_split s.week s.pending_orders hL
  have hpend : (process_turn inp s).pending_orders = next_pending inp s := rfl
  rw [hpend]
  unfold next_pending remaining_orders turn_arrivals
  split
  · rw [sumQty_append]
    show _ + (inp.order_qty + 0) + _ = _
    omega
  · omega

lemma conservation_run (inps : List TurnInput) :
    ∀ s : GameState, Inv s →
      totalEnqueued inps + sumQty s.pending_orders
        = totalArrivals inps s + sumQty (run inps s).pending_orders := by
  induction inps with
  | nil => intro s _; simp [totalEnqueued, totalArrivals, run]
  | cons inp rest ih =>
    intro s h
    have hstep := pendQty_step inp s fun o ho => (h.2.2.2.2 o ho).2
    have hrec := ih (process_turn inp s) (inv_process_turn inp s h)
    simp only [totalEnqueued, totalArrivals, run]
    omega

lemma check_events_base_mono (w : Int) (s : GameState)
    (hb : s.sea_lead_time_base = 2 ∨ s.sea_lead_time_base = 3) :
    s.sea_lead_time_base ≤ (check_events w s).sea_lead_time_base := by
  unfold check_events
  split
  · show s.sea_lead_time_base ≤ 3
    rcases hb with h | h <;> omega
  · exact le_refl _

/-! Claim theorems. -/

/-- C1: each turn sets `availableInventory = inventory + arrivals`,
`sales = min(demand, availableInventory)`, `missedSales = demand − sales`,
and `endingInventory = availableInventory − sales`, which becomes the new
inventory; and inventory is non-negative in every reachable state. -/
theorem inventory_flow_spec (s : GameState) :
    (∀ inp : TurnInput,
      available_inventory s = s.inventory + turn_arrivals s
      ∧ turn_sales inp s = min (turn_demand inp s) (available_inventory s)
      ∧ turn_missed_sales inp s = turn_demand inp s - turn_sales inp s
      ∧ (process_turn inp s).inventory = available_inventory s - turn_sales inp s)
    ∧ (Reachable s → 0 ≤ s.inventory) := by
  refine ⟨fun inp => ⟨rfl, rfl, rfl, rfl⟩, fun hs => (reachable_inv hs).1⟩

/-- C1 witness: the theorem applied at the initial state, whose
reachability hypothesis is discharged by the `init` constructor. -/
theorem inventory_flow_spec_witness :
    Reachable init_game ∧ 0 ≤ init_game.inventory :=
  ⟨Reachable.init, (inventory_flow_spec init_game).2 Reachable.init⟩

/-- C2 counterexample: the sidebar market-intel purchase changes cash with
no turn settlement — from the initial state it moves cash from 10000 to
9500 while the turn history stays empty, so cash does not change only
inside a turn's financial settlement. -/
theorem cash_only_turn_cex :
    (buy_intel init_game).cash = 9500 ∧ init_game.cash = 10000
    ∧ (buy_intel init_game).history = init_game.history := by
  refine ⟨by decide, by decide, by decide⟩

/-- C2 amended: every committed turn satisfies
`cash_t = cash_{t-1} + netProfit_t` with `netProfit_t` the net profit of
the appended `TurnResult`; the one operation outside the turn settlement
that changes cash is the market-intel purchase, which deducts exactly
`MARKET_INTEL_COST` when intel is off and cash suffices. -/
theorem cash_accounting (inp : TurnInput) (s : GameState) :
    (process_turn inp s).cash = s.cash + turn_net_profit inp s
    ∧ (turn_record inp s).net_profit = turn_net_profit inp s
    ∧ (process_turn inp s).history = s.history ++ [turn_record inp s]
    ∧ (buy_intel s).cash =
        (if s.market_intel = false ∧ MARKET_INTEL_COST ≤ s.cash
         then s.cash - MARKET_INTEL_COST else s.cash) := by
    refine ⟨rfl, rfl, rfl, ?_⟩
    unfold buy_intel
    by_cases hm : s.market_intel
    · simp [hm]
    · by_cases hc : MARKET_INTEL_COST ≤ s.cash
      · simp [hm, hc]
      · simp [hm, hc]

/-- C3 counterexample: after the single-turn run that orders 20 units from
the initial state, total quantity ever enqueued is 20 but total arrivals
over the run is 0 (the order is still pending), so enqueued and arrivals
totals differ. -/
theorem ledger_conservation_cex :
    totalEnqueued [⟨20, ShipMode.sea, 20, 0⟩] = 20
    ∧ totalArrivals [⟨20, ShipMode.sea, 20, 0⟩] init_game = 0
    ∧ totalEnqueued [⟨20, ShipMode.sea, 20, 0⟩]
        ≠ totalArrivals [⟨20, ShipMode.sea, 20, 0⟩] init_game := by
  refine ⟨by decide, by decide, by decide⟩

/-- C3 amended: for any finite sequence of decisions from the initial
state, the total quantity ever enqueued equals the total arrivals summed
across all turns plus the quantity still pending in the ledger at the end
— no shipment is double-counted or lost, but orders still in transit when
the run stops have not yet arrived. -/
theorem ledger_conservation_with_leftover (inps : List TurnInput) :
    totalEnqueued inps
      = totalArrivals inps init_game + sumQty (run inps init_game).pending_orders := by
  have h := conservation_run inps init_game inv_init
  have h0 : sumQty init_game.pending_orders = 0 := rfl
  omega

/-- C4: the KPI fine of a turn is the red fine when the score is below the
red threshold, else the yellow fine below the yellow threshold, else 0,
where the score consulted is the post-update score of the same turn (the
one recorded in the `TurnResult` and carried into the next state).  The
last two conjuncts exhibit a state (score 51 with a stockout this turn)
where the post-update score yields the red fine while the prior score
would only have yielded the yellow fine, so the two readings differ. -/
theorem kpi_fine_post_update (inp : TurnInput) (s : GameState) :
    (turn_record inp s).kpi_fine =
      (if (turn_record inp s).kpi_score < KPI_PENALTY_THRESHOLD_RED then KPI_FINE_RED
       else if (turn_record inp s).kpi_score < KPI_PENALTY_THRESHOLD_YELLOW then KPI_FINE_YELLOW
       else 0)
    ∧ (turn_record inp s).kpi_score = (process_turn inp s).kpi_score
    ∧ (process_turn inp s).history = s.history ++ [turn_record inp s]
    ∧ turn_kpi_fine ⟨0, ShipMode.sea, 10, 0⟩ { init_game with kpi_score := 51, inventory := 0 }
        = KPI_FINE_RED
    ∧ (if (51 : Int) < KPI_PENALTY_THRESHOLD_RED then KPI_FINE_RED
       else if (51 : Int) < KPI_PENALTY_THRESHOLD_YELLOW then KPI_FINE_YELLOW
       else 0) = KPI_FINE_YELLOW := by
  refine ⟨rfl, rfl, rfl, by decide, by decide⟩

/-- C5: the congestion flag entering the next turn is true iff this turn's
order quantity exceeds the upstream capacity threshold of 60; the
effective lead time used to enqueue is the (event-adjusted) sea base lead
time plus 1 when the previous turn set congestion, for sea mode, while air
mode always uses the fixed 1-week lead time; and a positive order is
enqueued with exactly that arrival week. -/
theorem congestion_and_lead_time (inp : TurnInput) (s : GameState) :
    ((process_turn inp s).upstream_congestion = true ↔ UPSTREAM_CAPACITY < inp.order_qty)
    ∧ turn_lead_time inp s =
        (if inp.ship_mode = ShipMode.air then 1
         else (events_state s).sea_lead_time_base + (if s.upstream_congestion then 1 else 0))
    ∧ (0 < inp.order_qty →
        (process_turn inp s).pending_orders
          = remaining_orders s ++ [⟨s.week + turn_lead_time inp s, inp.order_qty⟩]) := by
  refine ⟨?_, rfl, ?_⟩
  · show next_congestion inp = true ↔ _
    simp [next_congestion]
  · intro hq
    show next_pending inp s = _
    unfold next_pending
    rw [if_pos hq]
    rfl

/-- C5 witness: the theorem applied to a 20-unit sea order at the initial
state, whose positivity hypothesis is discharged concretely. -/
theorem congestion_and_lead_time_witness :
    (0 : Int) < 20
    ∧ (process_turn ⟨20, ShipMode.sea, 20, 0⟩ init_game).pending_orders
        = remaining_orders init_game
          ++ [⟨init_game.week + turn_lead_time ⟨20, ShipMode.sea, 20, 0⟩ init_game, 20⟩] :=
  ⟨by decide, (congestion_and_lead_time ⟨20, ShipMode.sea, 20, 0⟩ init_game).2.2 (by decide)⟩

/-- C6: a submission is rejected as an invalid decision exactly when the
game is already over, the order quantity is negative, or it exceeds the
configured maximum of 500; rejection produces no successor state, so the
game state is untouched; otherwise the turn runs and yields the processed
state. -/
theorem submit_validation (inp : TurnInput) (s : GameState) :
    (submit inp s = Except.error SubmitError.invalidDecision
      ↔ (s.game_over = true ∨ inp.order_qty < 0 ∨ MAX_ORDER_QTY < inp.order_qty))
    ∧ (s.game_over = false → 0 ≤ inp.order_qty → inp.order_qty ≤ MAX_ORDER_QTY →
        submit inp s = Except.ok (process_turn inp s)) := by
  constructor
  · unfold submit
    by_cases hg : s.game_over
    · simp [hg]
    · simp [hg]
      by_cases hq : inp.order_qty < 0 ∨ MAX_ORDER_QTY < inp.order_qty
      · simp [hq]
        omega
      · simp [hq]
        push_neg at hq
        omega
  · intro hg h0 h1
    unfold submit
    rw [if_neg (by simp [hg]), if_neg (by omega)]

/-- C6 witness: a valid 20-unit order at the initial state is accepted and
processed, with the three validity hypotheses discharged concretely. -/
theorem submit_validation_witness :
    init_game.game_over = false ∧ (0 : Int) ≤ 20 ∧ (20 : Int) ≤ MAX_ORDER_QTY
    ∧ submit ⟨20, ShipMode.sea, 20, 0⟩ init_game
        = Except.ok (process_turn ⟨20, ShipMode.sea, 20, 0⟩ init_game) :=
  ⟨rfl, by decide, by decide,
    (submit_validation ⟨20, ShipMode.sea, 20, 0⟩ init_game).2 rfl (by decide) (by decide)⟩

/-- C7 counterexample: in the week-1 scenario (cash 10000, inventory 50,
demand stubbed to 20 via draw 20, zero arrivals, order 20) the claimed
ending cash `10000 + (2000 − 1200 − holding(30) − 0) = 10650` is reached in
neither shipping mode: the code charges freight inside procurement, giving
cash 10610 by sea and 10350 by air. -/
theorem week1_scenario_cex :
    init_game.cash = 10000 ∧ init_game.inventory = 50 ∧ init_game.week = 1
    ∧ turn_demand ⟨20, ShipMode.sea, 20, 0⟩ init_game = 20
    ∧ turn_arrivals init_game = 0
    ∧ (10000 : Int) + (2000 - 1200 - 30 * HOLDING_COST - 0) = 10650
    ∧ (process_turn ⟨20, ShipMode.sea, 20, 0⟩ init_game).cash = 10610
    ∧ (process_turn ⟨20, ShipMode.air, 20, 0⟩ init_game).cash = 10350 := by
  refine ⟨by decide, by decide, by decide, by decide, by decide, by decide, by decide, by decide⟩

/-- C7 amended: the scenario yields `sales = 20`, `missedSales = 0`,
`endingInventory = 30` as claimed, and (with the default sea mode) ending
cash `10000 + (2000 − 20·(60 + seaFreight) − holding(30) − 0) = 10610`:
procurement is charged at market price plus per-unit freight. -/
theorem week1_scenario :
    (turn_record ⟨20, ShipMode.sea, 20, 0⟩ init_game).sales = 20
    ∧ (turn_record ⟨20, ShipMode.sea, 20, 0⟩ init_game).missed_sales = 0
    ∧ (turn_record ⟨20, ShipMode.sea, 20, 0⟩ init_game).ending_inv = 30
    ∧ (process_turn ⟨20, ShipMode.sea, 20, 0⟩ init_game).inventory = 30
    ∧ (process_turn ⟨20, ShipMode.sea, 20, 0⟩ init_game).cash
        = 10000 + (2000 - 20 * (60 + SEA_FREIGHT_COST) - 30 * HOLDING_COST - 0) := by
  refine ⟨by decide, by decide, by decide, by decide, by decide⟩

/-- C8: each turn updates the KPI score to the previous score minus 5 on a
stockout and plus 2 otherwise, clamped into [0, 100]; consequently the
score is within [0, 100] in every reachable state. -/
theorem kpi_update_and_bounds (s : GameState) :
    (∀ inp : TurnInput,
      (process_turn inp s).kpi_score
        = max 0 (min 100 (s.kpi_score + (if 0 < turn_missed_sales inp s then -5 else 2))))
    ∧ (Reachable s → 0 ≤ s.kpi_score ∧ s.kpi_score ≤ 100) :=
  ⟨fun _ => rfl, fun hs => ⟨(reachable_inv hs).2.1, (reachable_inv hs).2.2.1⟩⟩

/-- C8 witness: the theorem applied at the initial state, whose
reachability hypothesis is discharged by the `init` constructor. -/
theorem kpi_update_and_bounds_witness :
    Reachable init_game ∧ 0 ≤ init_game.kpi_score ∧ init_game.kpi_score ≤ 100 :=
  ⟨Reachable.init, (kpi_update_and_bounds init_game).2 Reachable.init⟩

/-- C9: applying the event schedule twice for the same week is the same as
applying it once (the week-12 shock sets the base lead time to the
constant 3, so a duplicate call does not double-apply it), and along
reachable states the base lead time never decreases — neither under an
event application nor across a full processed turn. -/
theorem event_schedule_idempotent_monotone :
    (∀ (w : Int) (s : GameState), check_events w (check_events w s) = check_events w s)
    ∧ (∀ s : GameState, Reachable s →
        (∀ w : Int, s.sea_lead_time_base ≤ (check_events w s).sea_lead_time_base)
        ∧ (∀ inp : TurnInput,
            s.sea_lead_time_base ≤ (process_turn inp s).sea_lead_time_base)) := by
  constructor
  · intro w s
    by_cases hw : w = 12 <;> simp [check_events, hw]
  · intro s hs
    have hb := (reachable_inv hs).2.2.2.1
    refine ⟨fun w => check_events_base_mono w s hb, fun inp => ?_⟩
    show s.sea_lead_time_base ≤ (events_state s).sea_lead_time_base
    exact check_events_base_mono s.week s hb

/-- C9 witness: the theorem applied at the initial state (reachability by
`init`), instantiated at week 12 and at a concrete turn input. -/
theorem event_schedule_idempotent_monotone_witness :
    Reachable init_game
    ∧ init_game.sea_lead_time_base ≤ (check_events 12 init_game).sea_lead_time_base
    ∧ init_game.sea_lead_time_base
        ≤ (process_turn ⟨20, ShipMode.sea, 20, 0⟩ init_game).sea_lead_time_base :=
  ⟨Reachable.init,
    (event_schedule_idempotent_monotone.2 init_game Reachable.init).1 12,
    (event_schedule_idempotent_monotone.2 init_game Reachable.init).2 ⟨20, ShipMode.sea, 20, 0⟩⟩

/-- C10: the ledger invariant — every pending shipment has positive
quantity and an arrival week no earlier than the current week — holds at
initialization and in every reachable state, so a zero-quantity order is
never stored and no shipment is retained past its arrival week. -/
theorem ledger_wellformed (s : GameState) :
    (∀ o ∈ init_game.pending_orders, 0 < o.qty ∧ init_game.week ≤ o.arrival_week)
    ∧ (Reachable s → ∀ o ∈ s.pending_orders, 0 < o.qty ∧ s.week ≤ o.arrival_week) := by
  refine ⟨fun o ho => absurd ho (by simp [init_game]), fun hs => (reachable_inv hs).2.2.2.2⟩

/-- C10 witness: the theorem applied to the reachable state after one
20-unit sea order, at the concrete pending shipment it creates. -/
theorem ledger_wellformed_witness :
    Reachable (process_turn ⟨20, ShipMode.sea, 20, 0⟩ init_game)
    ∧ (Shipment.mk 3 20) ∈ (process_turn ⟨20, ShipMode.sea, 20, 0⟩ init_game).pending_orders
    ∧ 0 < (Shipment.mk 3 20).qty
    ∧ (process_turn ⟨20, ShipMode.sea, 20, 0⟩ init_game).week ≤ (Shipment.mk 3 20).arrival_week :=
  ⟨Reachable.step ⟨20, ShipMode.sea, 20, 0⟩ Reachable.init, by decide,
    ((ledger_wellformed (process_turn ⟨20, ShipMode.sea, 20, 0⟩ init_game)).2
      (Reachable.step ⟨20, ShipMode.sea, 20, 0⟩ Reachable.init)
      (Shipment.mk 3 20) (by decide)).1,
    ((ledger_wellformed (process_turn ⟨20, ShipMode.sea, 20, 0⟩ init_game)).2
      (Reachable.step ⟨20, ShipMode.sea, 20, 0⟩ Reachable.init)
      (Shipment.mk 3 20) (by decide)).2⟩

end SupplyChain
